import Mathlib

/-!
Verification of the ThumbGen-Flask thumbnail generator.

Shallow embedding of the rendering core:
* `src/core/thumbnail.py`   — `ThumbnailGenerator` (text wrapping, layer pipeline,
  text layout, text background box, filename derivation);
* `src/resources/resource_manager.py` — `ResourceManager` (image/font caches,
  platform font fallbacks, load-time downscaling);
* `src/app.py` — the uploaded-background processing in `upload_background`.

Python strings are `List Char`; Python ints are `Int` (with `Int.fdiv` for
Python's floor division `//` and `Int.tdiv` for `int(...)` truncation of exact
products); PIL images are concrete RGBA pixel grids, while PIL operations whose
output content is not computable from the repository (glyph rasterisation,
resampling, glyph metrics) are abstract parameters of the model.
-/

namespace ThumbGen

/-! ## Python string helpers used by `thumbnail.py` -/

/-- Python whitespace recognised by `str.split()` (ASCII subset; the repository
only ever feeds ASCII form data through this path). -/
def isPySpace (c : Char) : Bool :=
  c = ' ' ∨ c = '\t' ∨ c = '\n' ∨ c = '\r' ∨ c = '\x0b' ∨ c = '\x0c'

/-- Python `str.split(sep)` for a one-character separator: keeps empty pieces,
so `"a\n\nb".split('\n') = ["a", "", "b"]` and `"".split('\n') = [""]`. -/
def pySplitOn (sep : Char) : List Char → List (List Char)
  | [] => [[]]
  | c :: cs =>
    if c = sep then [] :: pySplitOn sep cs
    else
      match pySplitOn sep cs with
      | [] => [[c]]
      | l :: ls => (c :: l) :: ls

/-- Word accumulator for `pySplitWs`: `acc` holds the characters of the word
currently being read, in reverse. -/
def pySplitWsAux : List Char → List Char → List (List Char)
  | [], acc => if acc.isEmpty then [] else [acc.reverse]
  | c :: cs, acc =>
    if isPySpace c then
      if acc.isEmpty then pySplitWsAux cs [] else acc.reverse :: pySplitWsAux cs []
    else pySplitWsAux cs (c :: acc)

/-- Python `str.split()` (no argument): splits on whitespace runs and drops
empty pieces, so `"  a  b ".split() = ["a","b"]` and `"   ".split() = []`. -/
def pySplitWs (s : List Char) : List (List Char) :=
  pySplitWsAux s []

/-- Python `' '.join(words)`. -/
def joinSpace : List (List Char) → List Char
  | [] => []
  | [w] => w
  | w :: ws => w ++ ' ' :: joinSpace ws

/-- Python `text.replace(c, rep)` for a one-character needle. -/
def pyReplace (c : Char) (rep : List Char) : List Char → List Char
  | [] => []
  | x :: xs => if x = c then rep ++ pyReplace c rep xs else x :: pyReplace c rep xs

/-! ## Text wrapping (`ThumbnailGenerator._wrap_text`)

`measure` stands for `draw.textbbox((0,0), s, font=font)`'s `right - left` for
the font resolved from `(font_name, font_size)`; it is an arbitrary function of
the text because glyph metrics live outside the repository. -/

/-- Inner loop of `_wrap_text` over the words of one paragraph, carrying the
`current_line` word accumulator; emits `' '.join(current_line)` whenever a
line commits, and flushes a nonempty accumulator at the end. -/
def wrapWords (measure : List Char → Int) (maxWidth : Int) :
    List (List Char) → List (List Char) → List (List Char)
  | [], current => if current.isEmpty then [] else [joinSpace current]
  | w :: ws, current =>
    let test := current ++ [w]
    if measure (joinSpace test) > maxWidth ∧ ¬ current.isEmpty then
      joinSpace current :: wrapWords measure maxWidth ws [w]
    else
      wrapWords measure maxWidth ws test

/-- `_wrap_text` applied to the list of `'\n'`-separated paragraphs. -/
def wrapParas (measure : List Char → Int) (maxWidth : Int) :
    List (List Char) → List (List Char)
  | [] => []
  | p :: ps => wrapWords measure maxWidth (pySplitWs p) [] ++ wrapParas measure maxWidth ps

/-- `ThumbnailGenerator._wrap_text(text, font_name, font_size, max_width)`:
split on `'\n'`, greedily pack the words of each paragraph by measured width. -/
def wrapText (measure : List Char → Int) (maxWidth : Int) (text : List Char) :
    List (List Char) :=
  wrapParas measure maxWidth (pySplitOn '\n' text)

/-! ## Facts about the splitting helpers -/

lemma pySplitOn_ne_nil (sep : Char) : ∀ s : List Char, pySplitOn sep s ≠ [] := by
  intro s
  induction s with
  | nil => simp [pySplitOn]
  | cons c cs ih =>
    by_cases h : c = sep
    · simp [pySplitOn, h]
    · simp only [pySplitOn, if_neg h]
      cases hcs : pySplitOn sep cs with
      | nil => simp
      | cons l ls => simp

lemma mem_pySplitOn_subset (sep : Char) :
    ∀ (s para : List Char), para ∈ pySplitOn sep s → ∀ c ∈ para, c ∈ s := by
  intro s
  induction s with
  | nil =>
    intro para hpara c hc
    simp only [pySplitOn, List.mem_singleton] at hpara
    subst hpara
    simp at hc
  | cons x xs ih =>
    intro para hpara c hc
    by_cases h : x = sep
    · simp only [pySplitOn, if_pos h, List.mem_cons] at hpara
      rcases hpara with rfl | hpara
      · simp at hc
      · exact List.mem_cons_of_mem _ (ih para hpara c hc)
    · simp only [pySplitOn, if_neg h] at hpara
      cases hxs : pySplitOn sep xs with
      | nil => exact absurd hxs (pySplitOn_ne_nil sep xs)
      | cons l ls =>
        rw [hxs] at hpara
        rcases List.mem_cons.mp hpara with rfl | hpara
        · rcases List.mem_cons.mp hc with rfl | hc
          · exact List.mem_cons_self _ _
          · exact List.mem_cons_of_mem _ (ih l (hxs ▸ List.mem_cons_self l ls) c hc)
        · exact List.mem_cons_of_mem _ (ih para (hxs ▸ List.mem_cons_of_mem l hpara) c hc)

lemma pySplitOn_append_sep (sep : Char) :
    ∀ x y : List Char,
      pySplitOn sep (x ++ sep :: y) = pySplitOn sep x ++ pySplitOn sep y := by
  intro x y
  induction x with
  | nil => simp [pySplitOn]
  | cons c cs ih =>
    by_cases h : c = sep
    · simp [pySplitOn, h, ih]
    · cases hcs : pySplitOn sep cs with
      | nil => exact absurd hcs (pySplitOn_ne_nil sep cs)
      | cons l ls =>
        simp only [List.cons_append, pySplitOn, if_neg h, List.append_eq]
        rw [ih, hcs]
        simp

lemma pySplitWs_all_space :
    ∀ s : List Char, (∀ c ∈ s, isPySpace c) → pySplitWs s = [] := by
  have aux : ∀ s : List Char, (∀ c ∈ s, isPySpace c) → pySplitWsAux s [] = [] := by
    intro s
    induction s with
    | nil => intro _; rfl
    | cons c cs ih =>
      intro h
      have hc : isPySpace c := h c (List.mem_cons_self _ _)
      rw [pySplitWsAux, if_pos hc]
      exact ih (fun d hd => h d (List.mem_cons_of_mem _ hd))
  exact fun s hs => aux s hs

/-! ## Soundness of the greedy wrapping loop (spec claim about line widths) -/

lemma joinSpace_singleton (w : List Char) : joinSpace [w] = w := rfl

lemma wrapWords_mem (measure : List Char → Int) (maxWidth : Int)
    (P : List Char → Prop) :
    ∀ (ws cur : List (List Char)),
      (∀ w ∈ ws, P w) →
      (cur = [] ∨ (∃ w, cur = [w] ∧ P w) ∨ measure (joinSpace cur) ≤ maxWidth) →
      ∀ l ∈ wrapWords measure maxWidth ws cur, measure l ≤ maxWidth ∨ P l := by
  intro ws
  induction ws with
  | nil =>
    intro cur _ hcur l hl
    rw [wrapWords] at hl
    by_cases hc : cur.isEmpty
    · simp [hc] at hl
    · rw [if_neg hc] at hl
      rcases List.mem_singleton.mp hl with rfl
      rcases hcur with rfl | ⟨w, rfl, hw⟩ | hle
      · simp at hc
      · exact Or.inr (joinSpace_singleton w ▸ hw)
      · exact Or.inl hle
  | cons w ws ih =>
    intro cur hws hcur l hl
    have hw : P w := hws w (List.mem_cons_self _ _)
    have hws' : ∀ v ∈ ws, P v := fun v hv => hws v (List.mem_cons_of_mem _ hv)
    rw [wrapWords] at hl
    by_cases hcond : measure (joinSpace (cur ++ [w])) > maxWidth ∧ ¬ cur.isEmpty
    · rw [if_pos hcond] at hl
      rcases List.mem_cons.mp hl with rfl | hl
      · rcases hcur with rfl | ⟨v, rfl, hv⟩ | hle
        · exact absurd rfl hcond.2
        · exact Or.inr (joinSpace_singleton v ▸ hv)
        · exact Or.inl hle
      · exact ih [w] hws' (Or.inr (Or.inl ⟨w, rfl, hw⟩)) l hl
    · rw [if_neg hcond] at hl
      rcases Decidable.not_and_iff_or_not.mp hcond with hle | hne
      · by_cases hcur0 : cur = []
        · subst hcur0
          exact ih [w] hws' (Or.inr (Or.inl ⟨w, by simp, hw⟩)) l hl
        · exact ih (cur ++ [w]) hws'
            (Or.inr (Or.inr (le_of_not_lt hle))) l hl
      · have : cur = [] := List.isEmpty_iff.mp (Decidable.not_not.mp hne)
        subst this
        exact ih [w] hws' (Or.inr (Or.inl ⟨w, by simp, hw⟩)) l hl

lemma wrapParas_mem (measure : List Char → Int) (maxWidth : Int) :
    ∀ (ps : List (List Char)), ∀ l ∈ wrapParas measure maxWidth ps,
      ∃ p ∈ ps, l ∈ wrapWords measure maxWidth (pySplitWs p) [] := by
  intro ps
  induction ps with
  | nil => intro l hl; simp [wrapParas] at hl
  | cons p ps ih =>
    intro l hl
    rw [wrapParas] at hl
    rcases List.mem_append.mp hl with hl | hl
    · exact ⟨p, List.mem_cons_self _ _, hl⟩
    · obtain ⟨q, hq, hlq⟩ := ih l hl
      exact ⟨q, List.mem_cons_of_mem _ hq, hlq⟩

lemma wrapParas_append (measure : List Char → Int) (maxWidth : Int) :
    ∀ (a b : List (List Char)),
      wrapParas measure maxWidth (a ++ b) =
        wrapParas measure maxWidth a ++ wrapParas measure maxWidth b := by
  intro a b
  induction a with
  | nil => simp [wrapParas]
  | cons p ps ih => simp [wrapParas, ih]

/-- Claim C1: every line produced by `_wrap_text` has measured width at most
`max_width`, except possibly a line that is a single word of the input (an
unsplittable word wider than the limit, which is emitted alone). -/
theorem wrap_width_bound (measure : List Char → Int) (maxWidth : Int)
    (text : List Char) :
    ∀ l ∈ wrapText measure maxWidth text,
      measure l ≤ maxWidth ∨
        ∃ para ∈ pySplitOn '\n' text, l ∈ pySplitWs para := by
  intro l hl
  obtain ⟨p, hp, hlp⟩ := wrapParas_mem measure maxWidth _ l hl
  have := wrapWords_mem measure maxWidth (fun w => w ∈ pySplitWs p)
    (pySplitWs p) [] (fun w hw => hw) (Or.inl rfl) l hlp
  rcases this with hle | hmem
  · exact Or.inl hle
  · exact Or.inr ⟨p, hp, hmem⟩

/-- Witness for `wrap_width_bound` at a concrete input: with character-count
metrics and limit 5, the text `"ab cd"` wraps to the single line `"ab cd"`. -/
theorem wrap_width_bound_witness :
    "ab cd".toList ∈ wrapText (fun s => (s.length : Int)) 5 "ab cd".toList ∧
      ((fun s => (s.length : Int)) "ab cd".toList ≤ 5 ∨
        ∃ para ∈ pySplitOn '\n' "ab cd".toList,
          "ab cd".toList ∈ pySplitWs para) :=
  ⟨by decide,
    wrap_width_bound (fun s => (s.length : Int)) 5 "ab cd".toList
      "ab cd".toList (by decide)⟩

/-- Claim C10: `_wrap_text` drops empty paragraphs: the empty and the
whitespace-only string wrap to no lines at all, and a blank paragraph between
two consecutive explicit line breaks contributes no output line (wrapping
`t ++ "\n\n" ++ u` equals wrapping `t ++ "\n" ++ u`). -/
theorem wrap_drops_empty_paragraphs :
    (∀ (measure : List Char → Int) (maxWidth : Int),
        wrapText measure maxWidth [] = []) ∧
    (∀ (measure : List Char → Int) (maxWidth : Int) (s : List Char),
        (∀ c ∈ s, isPySpace c) → wrapText measure maxWidth s = []) ∧
    (∀ (measure : List Char → Int) (maxWidth : Int) (t u : List Char),
        wrapText measure maxWidth (t ++ '\n' :: '\n' :: u) =
          wrapText measure maxWidth (t ++ '\n' :: u)) := by
  have hnil : ∀ (measure : List Char → Int) (maxWidth : Int)
      (ps : List (List Char)), (∀ p ∈ ps, pySplitWs p = []) →
      wrapParas measure maxWidth ps = [] := by
    intro measure maxWidth ps
    induction ps with
    | nil => intro _; rfl
    | cons p ps ih =>
      intro h
      rw [wrapParas, h p (List.mem_cons_self _ _),
        ih (fun q hq => h q (List.mem_cons_of_mem _ hq))]
      rfl
  refine ⟨fun measure maxWidth => rfl, ?_, ?_⟩
  · intro measure maxWidth s hs
    unfold wrapText
    exact hnil measure maxWidth _ (fun p hp =>
      pySplitWs_all_space p
        (fun c hc => hs c (mem_pySplitOn_subset '\n' s p hp c hc)))
  · intro measure maxWidth t u
    unfold wrapText
    have h1 : pySplitOn '\n' (t ++ '\n' :: '\n' :: u) =
        pySplitOn '\n' t ++ [] :: pySplitOn '\n' u := by
      rw [pySplitOn_append_sep]
      rfl
    have h2 : pySplitOn '\n' (t ++ '\n' :: u) =
        pySplitOn '\n' t ++ pySplitOn '\n' u := pySplitOn_append_sep '\n' t u
    rw [h1, h2, wrapParas_append, wrapParas_append, wrapParas]
    rfl

/-- Witness for `wrap_drops_empty_paragraphs`: the whitespace-only string
`"  "` wraps to no lines under character-count metrics. -/
theorem wrap_drops_empty_paragraphs_witness :
    wrapText (fun s => (s.length : Int)) 5 "  ".toList = [] :=
  wrap_drops_empty_paragraphs.2.1 (fun s => (s.length : Int)) 5 "  ".toList
    (by decide)

/-! ## RGBA canvases and the PIL operations used by `thumbnail.py`

A canvas is a list of rows of RGBA pixels (channel values are `Nat`, 0–255 in
any image PIL produces). `Image.alpha_composite` is modelled after Pillow's
`AlphaComposite.c` integer implementation (PRECISION_BITS = 7, with the exact
short-circuit for a fully transparent source pixel). `Image.paste` with an RGBA
mask blends each channel by the mask value; its rounding is modelled with floor
division, which no claim depends on. -/

structure RGBA where
  r : Nat
  g : Nat
  b : Nat
  a : Nat
deriving DecidableEq

abbrev Canvas := List (List RGBA)

/-- `List.map` with the element index, used for coordinate-indexed pixel maps. -/
def mapIdxFrom (f : Nat → α → β) : Nat → List α → List β
  | _, [] => []
  | i, x :: xs => f i x :: mapIdxFrom f (i + 1) xs

def mapIdx2 (f : Nat → α → β) (l : List α) : List β := mapIdxFrom f 0 l

/-- `Image.new("RGBA", (w, h), color)`. -/
def solidCanvas (w h : Nat) (color : RGBA) : Canvas :=
  List.replicate h (List.replicate w color)

/-- `Image.new("RGBA", (w, h), (0, 0, 0, 0))`. -/
def blankCanvas (w h : Nat) : Canvas := solidCanvas w h ⟨0, 0, 0, 0⟩

def canvasWidth (c : Canvas) : Nat :=
  match c with
  | [] => 0
  | row :: _ => row.length

/-- `((a >> 8) + a) >> 8`, Pillow's `SHIFTFORDIV255`. -/
def shiftForDiv255 (a : Nat) : Nat := (a / 256 + a) / 256

/-- One pixel of Pillow's `alpha_composite` (non-premultiplied alpha-over):
the exact integer arithmetic of `AlphaComposite.c`, including the fast path
that copies the destination when the source alpha is 0. -/
def compositePix (dst src : RGBA) : RGBA :=
  if src.a = 0 then dst
  else
    let blend := dst.a * (255 - src.a)
    let outa255 := src.a * 255 + blend
    let coef1 := src.a * 255 * 255 * 128 / outa255
    let coef2 := 255 * 128 - coef1
    let ch := fun (s d : Nat) => shiftForDiv255 (s * coef1 + d * coef2 + 128 * 128) / 128
    ⟨ch src.r dst.r, ch src.g dst.g, ch src.b dst.b, shiftForDiv255 (outa255 + 128)⟩

/-- `Image.alpha_composite(dst, src)` (both images have the canvas size in
every call the generator makes). -/
def alphaComposite (dst src : Canvas) : Canvas :=
  List.zipWith (List.zipWith compositePix) dst src

/-- Pixel fetch with out-of-range lookup reported as `none` (used to model
pasting a smaller image onto a larger canvas). -/
def getPix (src : Canvas) (y x : Int) : Option RGBA :=
  if 0 ≤ y ∧ 0 ≤ x then
    match src.get? y.toNat with
    | none => none
    | some row => row.get? x.toNat
  else none

/-- One pixel of `Image.paste(src, pos, mask)` where the mask is `src`'s own
alpha band: each channel is blended by the mask value (rounding modelled as
floor division). -/
def pasteBlend (dst src : RGBA) : RGBA :=
  let m := src.a
  ⟨(dst.r * (255 - m) + src.r * m) / 255,
   (dst.g * (255 - m) + src.g * m) / 255,
   (dst.b * (255 - m) + src.b * m) / 255,
   (dst.a * (255 - m) + src.a * m) / 255⟩

/-- `dst.paste(src, (x0, y0), src)`: PIL pastes the region of `src` that
overlaps `dst`, blending by `src`'s alpha; pixels outside `src` are kept. -/
def pasteCanvas (dst src : Canvas) (x0 y0 : Int) : Canvas :=
  mapIdx2 (fun y row =>
    mapIdx2 (fun x p =>
      match getPix src (Int.ofNat y - y0) (Int.ofNat x - x0) with
      | none => p
      | some s => pasteBlend p s) row) dst

/-- `a.point(lambda i: int(i * opacity / 100.0))` on the alpha band: the float
product of a byte and `opacity/100.0` truncated to int, modelled as exact
rational truncation (negative results clamp to 0 as PIL's lookup table does).
Every claim that touches this uses `opacity = 0`, where the model is exact. -/
def scaleAlphaVal (opacity : Int) (i : Nat) : Nat :=
  ((Int.ofNat i * opacity).tdiv 100).toNat

/-- `split` / scale alpha / `merge`: keep RGB, scale the alpha band. -/
def alphaScale (c : Canvas) (opacity : Int) : Canvas :=
  c.map (fun row => row.map (fun p => ⟨p.r, p.g, p.b, scaleAlphaVal opacity p.a⟩))

/-- The tint step of `_add_pattern`: a solid `pattern_color[:3] + (0,)` image
receiving the pattern's alpha band via `putalpha` — RGB replaced, alpha kept. -/
def tintCanvas (c : Canvas) (color : RGBA) : Canvas :=
  c.map (fun row => row.map (fun p => ⟨color.r, color.g, color.b, p.a⟩))

/-- `draw.rectangle([x0, y0, x1, y1], fill=color)`: PIL fills the rectangle
with both corners inclusive, replacing the pixels. -/
def fillRect (img : Canvas) (x0 y0 x1 y1 : Int) (color : RGBA) : Canvas :=
  mapIdx2 (fun y row =>
    mapIdx2 (fun x p =>
      if x0 ≤ Int.ofNat x ∧ Int.ofNat x ≤ x1 ∧ y0 ≤ Int.ofNat y ∧ Int.ofNat y ≤ y1
      then color else p) row) img

/-! ## The style configuration held by `ThumbnailGenerator`

Fields mirror the attributes set in `_initialize_defaults` / `apply_settings`.
Numeric settings are Python ints (`safe_int` never restricts their sign), so
they are `Int` here; `line_spacing_factor` reaches the generator as
`safe_int(...) / 100.0`, so it is carried as that integer numerator
`lsf100` with `int(font_size * factor)` modelled as truncated division
by 100. -/

inductive Filter where
  | lanczos
  | bilinear
deriving DecidableEq

structure Config where
  background_image : Option Canvas
  background_color : RGBA
  background_opacity : Int
  bg_image_scale : Int
  bg_image_x_offset : Int
  bg_image_y_offset : Int
  current_pattern : Option Canvas
  pattern_opacity : Int
  pattern_scale : Int
  pattern_x_offset : Int
  pattern_y_offset : Int
  pattern_color : RGBA
  pattern_color_enabled : Bool
  text_color : RGBA
  text_alignment : String
  text_margins : Int
  text_x_offset : Int
  text_y_offset : Int
  lsf100 : Int
  text_stroke_width : Int
  text_stroke_color : RGBA
  text_box_enabled : Bool
  text_box_color : RGBA
  text_box_padding : Int
  font_name : String
  font_size : Int
  filename_base : List Char

/-- One `draw.text(...)` invocation of the glyph loop, with every argument the
source passes. -/
structure TextCmd where
  x : Int
  y : Int
  text : List Char
  font_name : String
  font_size : Int
  fill : RGBA
  stroke_width : Int
  stroke_fill : RGBA

/-- The PIL operations whose output content is not computable from the
repository: glyph metrics (`draw.textbbox` width for a font), glyph
rasterisation (`draw.text`), and resampling (`Image.resize`). They are
abstract parameters; every theorem below holds for all of them. -/
structure Raster where
  textWidth : String → Int → List Char → Int
  drawText : Canvas → TextCmd → Canvas
  resize : Canvas → Int → Int → Filter → Canvas

/-- `color[:3] + (255,)`. -/
def rgbFull (c : RGBA) : RGBA := ⟨c.r, c.g, c.b, 255⟩

/-! ## The layer pipeline (`ThumbnailGenerator.generate_thumbnail`) -/

/-- `_add_background_color`: composite a solid, fully opaque
`background_color[:3] + (255,)` fill over the canvas. -/
def addBackgroundColor (cfg : Config) (img : Canvas) (w h : Nat) : Canvas :=
  alphaComposite img (solidCanvas w h (rgbFull cfg.background_color))

/-- `_add_background_image`: scale, center plus offset, apply
`background_opacity` to the alpha band when it is below 100, composite. -/
def addBackgroundImage (R : Raster) (cfg : Config) (img : Canvas) (w h : Nat) :
    Canvas :=
  match cfg.background_image with
  | none => img
  | some bg =>
    let bg_width := (Int.ofNat w * cfg.bg_image_scale).tdiv 100
    let bg_height := (Int.ofNat h * cfg.bg_image_scale).tdiv 100
    let resample := if cfg.bg_image_scale < 100 then Filter.lanczos else Filter.bilinear
    let resized_bg := R.resize bg bg_width bg_height resample
    let x_pos := (Int.ofNat w - bg_width).fdiv 2 + cfg.bg_image_x_offset
    let y_pos := (Int.ofNat h - bg_height).fdiv 2 + cfg.bg_image_y_offset
    let bg_canvas := pasteCanvas (blankCanvas w h) resized_bg x_pos y_pos
    let bg_canvas :=
      if cfg.background_opacity < 100 then alphaScale bg_canvas cfg.background_opacity
      else bg_canvas
    alphaComposite img bg_canvas

/-- `_add_pattern`: scale (preserving aspect ratio) when the scale is not
100 %, center plus offset, optionally tint, apply `pattern_opacity` to the
alpha band when below 100, composite. -/
def addPattern (R : Raster) (cfg : Config) (img : Canvas) (w h : Nat) : Canvas :=
  match cfg.current_pattern with
  | none => img
  | some pat =>
    let orig_width := canvasWidth pat
    let orig_height := pat.length
    let scaled :=
      if cfg.pattern_scale ≠ 100 then
        let new_width := (Int.ofNat orig_width * cfg.pattern_scale).tdiv 100
        let new_height := (Int.ofNat orig_height * cfg.pattern_scale).tdiv 100
        let resample := if cfg.pattern_scale < 100 then Filter.lanczos else Filter.bilinear
        (R.resize pat new_width new_height resample, new_width, new_height)
      else (pat, Int.ofNat orig_width, Int.ofNat orig_height)
    let x_pos := (Int.ofNat w - scaled.2.1).fdiv 2 + cfg.pattern_x_offset
    let y_pos := (Int.ofNat h - scaled.2.2).fdiv 2 + cfg.pattern_y_offset
    let pattern_canvas := pasteCanvas (blankCanvas w h) scaled.1 x_pos y_pos
    let pattern_canvas :=
      if cfg.pattern_color_enabled then tintCanvas pattern_canvas cfg.pattern_color
      else pattern_canvas
    let pattern_canvas :=
      if cfg.pattern_opacity < 100 then alphaScale pattern_canvas cfg.pattern_opacity
      else pattern_canvas
    alphaComposite img pattern_canvas

/-! ## Text layout (`_add_text`, `_calculate_text_x_position`,
`_draw_text_box`) -/

/-- `_calculate_text_x_position(line, font, draw, width, align)` with the
line's measured width already taken. -/
def calculate_text_x_position (cfg : Config) (line_width : Int) (w : Nat)
    (align : String) : Int :=
  if align = "top_left" ∨ align = "left" ∨ align = "bottom_left" then
    cfg.text_margins + cfg.text_x_offset
  else if align = "top_center" ∨ align = "center" ∨ align = "bottom_center" then
    (Int.ofNat w - line_width).fdiv 2 + cfg.text_x_offset
  else if align = "top_right" ∨ align = "right" ∨ align = "bottom_right" then
    Int.ofNat w - cfg.text_margins - line_width + cfg.text_x_offset
  else
    (Int.ofNat w - line_width).fdiv 2 + cfg.text_x_offset

/-- The `box_x` computation of `_draw_text_box`: only the literal alignments
`"center"` and `"left"` get their own formula; everything else falls into the
`else:  # right` branch. -/
def text_box_x (cfg : Config) (max_line_width : Int) (w : Nat) : Int :=
  if cfg.text_alignment = "center" then
    (Int.ofNat w - max_line_width).fdiv 2 - cfg.text_box_padding + cfg.text_x_offset
  else if cfg.text_alignment = "left" then
    cfg.text_margins - cfg.text_box_padding + cfg.text_x_offset
  else
    Int.ofNat w - cfg.text_margins - max_line_width - cfg.text_box_padding
      + cfg.text_x_offset

/-- `line_spacing = int(self.font_size * self.line_spacing_factor)`. -/
def lineSpacing (cfg : Config) : Int := (cfg.font_size * cfg.lsf100).tdiv 100

/-- `text_height = len(lines) * (font_size + line_spacing) - line_spacing`. -/
def textBlockHeight (cfg : Config) (n : Nat) : Int :=
  Int.ofNat n * (cfg.font_size + lineSpacing cfg) - lineSpacing cfg

/-- The `y_position` anchor of `_add_text`, chosen by alignment group. -/
def textYPosition (cfg : Config) (h : Nat) (n : Nat) : Int :=
  if cfg.text_alignment = "top_left" ∨ cfg.text_alignment = "top_center"
      ∨ cfg.text_alignment = "top_right" then
    cfg.text_margins + cfg.text_y_offset
  else if cfg.text_alignment = "bottom_left" ∨ cfg.text_alignment = "bottom_center"
      ∨ cfg.text_alignment = "bottom_right" then
    Int.ofNat h - cfg.text_margins - textBlockHeight cfg n + cfg.text_y_offset
  else
    (Int.ofNat h - textBlockHeight cfg n).fdiv 2 + cfg.text_y_offset

/-- The wrapped lines of the display text: `_wrap_text(display_text, font_name,
font_size, width - 2 * text_margins)` with this font's metrics. -/
def computeLines (R : Raster) (cfg : Config) (displayText : List Char) (w : Nat) :
    List (List Char) :=
  wrapText (R.textWidth cfg.font_name cfg.font_size)
    (Int.ofNat w - cfg.text_margins * 2) displayText

/-- `max_line_width` as `_add_text` computes it when the text box is enabled. -/
def maxLineWidth (measure : List Char → Int) (lines : List (List Char)) : Int :=
  lines.foldl (fun acc l => max acc (measure l)) 0

/-- `_draw_text_box`: either a pasted semi-transparent overlay (when the box
color's alpha is below 255) or an opaque `draw.rectangle`. -/
def drawTextBox (cfg : Config) (numLines : Nat) (max_line_width : Int)
    (w _h : Nat) (y_position : Int) (img : Canvas) : Canvas :=
  let box_x := text_box_x cfg max_line_width w
  let box_y := y_position - cfg.text_box_padding
  let box_width := max_line_width + 2 * cfg.text_box_padding
  let box_height := Int.ofNat numLines * (cfg.font_size + lineSpacing cfg)
    - lineSpacing cfg + 2 * cfg.text_box_padding
  if cfg.text_box_color.a < 255 then
    pasteCanvas img (solidCanvas box_width.toNat box_height.toNat cfg.text_box_color)
      box_x box_y
  else
    fillRect img box_x box_y (box_x + box_width) (box_y + box_height)
      cfg.text_box_color

/-- The glyph loop of `_add_text`: one `draw.text` per wrapped line, with the
per-line x position and the y cursor advancing by `font_size + line_spacing`. -/
def drawGlyphLines (R : Raster) (cfg : Config) (measure : List Char → Int)
    (w : Nat) : List (List Char) → Canvas → Int → Canvas
  | [], img, _ => img
  | l :: ls, img, y =>
    let x := calculate_text_x_position cfg (measure l) w cfg.text_alignment
    drawGlyphLines R cfg measure w ls
      (R.drawText img
        ⟨x, y, l, cfg.font_name, cfg.font_size, rgbFull cfg.text_color,
          cfg.text_stroke_width, rgbFull cfg.text_stroke_color⟩)
      (y + cfg.font_size + lineSpacing cfg)

/-- `_add_text`: wrap, compute the block anchor, draw the background box when
enabled, then draw every line of glyphs (with stroke) over it. -/
def addText (R : Raster) (cfg : Config) (img : Canvas) (displayText : List Char)
    (w h : Nat) : Canvas :=
  let measure := R.textWidth cfg.font_name cfg.font_size
  let lines := computeLines R cfg displayText w
  let y0 := textYPosition cfg h lines.length
  let mlw := if cfg.text_box_enabled then maxLineWidth measure lines else 0
  let img1 :=
    if cfg.text_box_enabled then drawTextBox cfg lines.length mlw w h y0 img
    else img
  drawGlyphLines R cfg measure w lines img1 y0

/-- `generate_thumbnail(text, number, width, height)`: substitute the sequence
number for `'^'` in the text, then apply the four layer stages in order, and
return the canvas together with `f"{filename_base}{number}"`. -/
def generate_thumbnail (R : Raster) (cfg : Config) (text : List Char)
    (number : Int) (w h : Nat) : Canvas × List Char :=
  let display_text := pyReplace '^' (toString number).toList text
  let img := blankCanvas w h
  let img := addBackgroundColor cfg img w h
  let img := addBackgroundImage R cfg img w h
  let img := addPattern R cfg img w h
  let img := addText R cfg img display_text w h
  (img, cfg.filename_base ++ (toString number).toList)

/-! ## Canvas shape lemmas -/

/-- Well-formed `w × h` RGBA image: `h` rows of `w` pixels. -/
def isGrid (c : Canvas) (w h : Nat) : Prop :=
  c.length = h ∧ ∀ row ∈ c, row.length = w

lemma mapIdxFrom_length (f : Nat → α → β) :
    ∀ (i : Nat) (l : List α), (mapIdxFrom f i l).length = l.length := by
  intro i l
  induction l generalizing i with
  | nil => rfl
  | cons x xs ih => simp [mapIdxFrom, ih]

lemma mem_mapIdxFrom (f : Nat → α → β) :
    ∀ (l : List α) (i : Nat) (y : β), y ∈ mapIdxFrom f i l →
      ∃ j x, x ∈ l ∧ y = f j x := by
  intro l
  induction l with
  | nil => intro i y hy; simp [mapIdxFrom] at hy
  | cons x xs ih =>
    intro i y hy
    rcases List.mem_cons.mp hy with rfl | hy
    · exact ⟨i, x, List.mem_cons_self _ _, rfl⟩
    · obtain ⟨j, z, hz, rfl⟩ := ih (i + 1) y hy
      exact ⟨j, z, List.mem_cons_of_mem _ hz, rfl⟩

lemma isGrid_solid (w h : Nat) (color : RGBA) : isGrid (solidCanvas w h color) w h := by
  constructor
  · simp [solidCanvas]
  · intro row hrow
    rw [List.eq_of_mem_replicate hrow]
    simp

lemma isGrid_blank (w h : Nat) : isGrid (blankCanvas w h) w h :=
  isGrid_solid w h _

lemma isGrid_paste (dst src : Canvas) (x0 y0 : Int) (w h : Nat)
    (hd : isGrid dst w h) : isGrid (pasteCanvas dst src x0 y0) w h := by
  constructor
  · rw [pasteCanvas, mapIdx2, mapIdxFrom_length]
    exact hd.1
  · intro row hrow
    obtain ⟨j, orig, horig, rfl⟩ := mem_mapIdxFrom _ _ _ _ hrow
    rw [mapIdx2, mapIdxFrom_length]
    exact hd.2 orig horig

lemma isGrid_map_pix (f : RGBA → RGBA) (c : Canvas) (w h : Nat)
    (hc : isGrid c w h) :
    isGrid (c.map (fun row => row.map f)) w h := by
  constructor
  · simpa using hc.1
  · intro row hrow
    obtain ⟨orig, horig, rfl⟩ := List.mem_map.mp hrow
    simpa using hc.2 orig horig

lemma isGrid_tint (c : Canvas) (color : RGBA) (w h : Nat) (hc : isGrid c w h) :
    isGrid (tintCanvas c color) w h :=
  isGrid_map_pix _ c w h hc

lemma isGrid_alphaScale (c : Canvas) (o : Int) (w h : Nat) (hc : isGrid c w h) :
    isGrid (alphaScale c o) w h :=
  isGrid_map_pix _ c w h hc

/-! ## Alpha-compositing a fully transparent layer is the identity -/

lemma scaleAlphaVal_zero (i : Nat) : scaleAlphaVal 0 i = 0 := by
  simp [scaleAlphaVal]

lemma alphaScale_zero_alpha (c : Canvas) :
    ∀ row ∈ alphaScale c 0, ∀ p ∈ row, p.a = 0 := by
  intro row hrow p hp
  obtain ⟨orig, _, rfl⟩ := List.mem_map.mp hrow
  obtain ⟨q, _, rfl⟩ := List.mem_map.mp hp
  exact scaleAlphaVal_zero q.a

lemma compositePix_zero (d s : RGBA) (hs : s.a = 0) : compositePix d s = d := by
  rw [compositePix, if_pos hs]

lemma zipWith_compositePix_row :
    ∀ (d s : List RGBA), d.length ≤ s.length → (∀ p ∈ s, p.a = 0) →
      List.zipWith compositePix d s = d := by
  intro d
  induction d with
  | nil => intro s _ _; rfl
  | cons x xs ih =>
    intro s hlen hz
    cases s with
    | nil => simp at hlen
    | cons y ys =>
      rw [List.zipWith_cons_cons,
        compositePix_zero x y (hz y (List.mem_cons_self _ _)),
        ih ys (Nat.le_of_succ_le_succ hlen)
          (fun p hp => hz p (List.mem_cons_of_mem _ hp))]

lemma alphaComposite_transparent (w h : Nat) :
    ∀ (dst src : Canvas), isGrid dst w h → isGrid src w h →
      (∀ row ∈ src, ∀ p ∈ row, p.a = 0) → alphaComposite dst src = dst := by
  intro dst
  induction dst generalizing h with
  | nil => intro src _ _ _; rfl
  | cons r rs ih =>
    intro src hd hs hz
    cases src with
    | nil =>
      exfalso
      have h1 : rs.length + 1 = h := by simpa using hd.1
      have h2 : (0 : Nat) = h := by simpa using hs.1
      omega
    | cons srow srows =>
      rw [alphaComposite, List.zipWith_cons_cons]
      have hr : List.zipWith compositePix r srow = r :=
        zipWith_compositePix_row r srow
          (by rw [hd.2 r (List.mem_cons_self _ _),
                hs.2 srow (List.mem_cons_self _ _)])
          (hz srow (List.mem_cons_self _ _))
      have hrec : alphaComposite rs srows = rs := by
        refine ih (h := rs.length) srows ⟨rfl, ?_⟩ ⟨?_, ?_⟩ ?_
        · exact fun row hrow => hd.2 row (List.mem_cons_of_mem _ hrow)
        · have h1 : rs.length + 1 = h := by simpa using hd.1
          have h2 : srows.length + 1 = h := by simpa using hs.1
          omega
        · exact fun row hrow => hs.2 row (List.mem_cons_of_mem _ hrow)
        · exact fun row hrow => hz row (List.mem_cons_of_mem _ hrow)
      rw [alphaComposite] at hrec
      rw [hr, hrec]

/-! ## Claim C9: a pattern at opacity 0 composites to the identity -/

/-- Claim C9: with a pattern configured and `pattern_opacity = 0`, the pattern
stage leaves the canvas exactly unchanged — the same output as having no
pattern configured at all (second conjunct). The alpha band is scaled by
factor 0, and Pillow's alpha-over blend copies the destination wherever the
source alpha is 0. -/
theorem pattern_opacity_zero_identity :
    (∀ (R : Raster) (cfg : Config) (img pat : Canvas) (w h : Nat),
        cfg.current_pattern = some pat → cfg.pattern_opacity = 0 →
        isGrid img w h → addPattern R cfg img w h = img) ∧
    (∀ (R : Raster) (cfg : Config) (img : Canvas) (w h : Nat),
        cfg.current_pattern = none → addPattern R cfg img w h = img) := by
  constructor
  · intro R cfg img pat w h hpat hop hgrid
    rw [addPattern, hpat]
    simp only [hop]
    rw [if_pos (by norm_num : (0 : Int) < 100)]
    set base := pasteCanvas (blankCanvas w h) _ _ _ with hbase
    have hbaseGrid : isGrid base w h :=
      isGrid_paste _ _ _ _ w h (isGrid_blank w h)
    set tinted := if cfg.pattern_color_enabled then tintCanvas base cfg.pattern_color else base
      with htinted
    have htintGrid : isGrid tinted w h := by
      rw [htinted]
      by_cases hb : cfg.pattern_color_enabled
      · rw [if_pos hb]; exact isGrid_tint _ _ w h hbaseGrid
      · rw [if_neg hb]; exact hbaseGrid
    exact alphaComposite_transparent w h img (alphaScale tinted 0) hgrid
      (isGrid_alphaScale _ _ w h htintGrid) (alphaScale_zero_alpha tinted)
  · intro R cfg img w h hnone
    rw [addPattern, hnone]

/-! ## Concrete instances used by witnesses and counterexamples -/

/-- A concrete rasteriser: character-count metrics, glyph drawing and
resampling that leave the canvas unchanged. Witness theorems instantiate the
abstract `Raster` parameter with it. -/
def constRaster : Raster where
  textWidth := fun _ _ s => (s.length : Int)
  drawText := fun c _ => c
  resize := fun c _ _ _ => c

/-- The defaults set by `ThumbnailGenerator._initialize_defaults`. -/
def defaultConfig : Config where
  background_image := none
  background_color := ⟨215, 63, 9, 255⟩
  background_opacity := 100
  bg_image_scale := 100
  bg_image_x_offset := 0
  bg_image_y_offset := 0
  current_pattern := none
  pattern_opacity := 100
  pattern_scale := 40
  pattern_x_offset := 0
  pattern_y_offset := 0
  pattern_color := ⟨255, 255, 255, 255⟩
  pattern_color_enabled := false
  text_color := ⟨255, 255, 255, 255⟩
  text_alignment := "center"
  text_margins := 100
  text_x_offset := 0
  text_y_offset := 0
  lsf100 := 30
  text_stroke_width := 0
  text_stroke_color := ⟨0, 0, 0, 255⟩
  text_box_enabled := false
  text_box_color := ⟨0, 0, 0, 255⟩
  text_box_padding := 20
  font_name := "Arial"
  font_size := 100
  filename_base := "output".toList

/-- Witness for `pattern_opacity_zero_identity` at a concrete input: a 2×2
opaque white pattern at opacity 0 over a concrete 2×2 canvas. -/
theorem pattern_opacity_zero_identity_witness :
    ({ defaultConfig with
        current_pattern := some [[⟨255, 255, 255, 255⟩, ⟨255, 255, 255, 255⟩],
          [⟨255, 255, 255, 255⟩, ⟨255, 255, 255, 255⟩]],
        pattern_opacity := 0 } : Config).current_pattern =
        some [[⟨255, 255, 255, 255⟩, ⟨255, 255, 255, 255⟩],
          [⟨255, 255, 255, 255⟩, ⟨255, 255, 255, 255⟩]] ∧
    addPattern constRaster
      { defaultConfig with
        current_pattern := some [[⟨255, 255, 255, 255⟩, ⟨255, 255, 255, 255⟩],
          [⟨255, 255, 255, 255⟩, ⟨255, 255, 255, 255⟩]],
        pattern_opacity := 0 }
      (blankCanvas 2 2) 2 2 = blankCanvas 2 2 :=
  ⟨rfl,
    pattern_opacity_zero_identity.1 constRaster _ (blankCanvas 2 2) _ 2 2 rfl rfl
      (by constructor <;> decide)⟩

/-! ## Claim C2: the fixed order of the compositing layers -/

/-- The text-box stage of `_add_text`, extracted: draw the background box when
enabled, otherwise keep the canvas. -/
def boxStage (R : Raster) (cfg : Config) (displayText : List Char) (w h : Nat)
    (img : Canvas) : Canvas :=
  let measure := R.textWidth cfg.font_name cfg.font_size
  let lines := computeLines R cfg displayText w
  let y0 := textYPosition cfg h lines.length
  let mlw := if cfg.text_box_enabled then maxLineWidth measure lines else 0
  if cfg.text_box_enabled then drawTextBox cfg lines.length mlw w h y0 img else img

/-- The glyph stage of `_add_text`, extracted: draw every wrapped line. -/
def glyphStage (R : Raster) (cfg : Config) (displayText : List Char) (w h : Nat)
    (img : Canvas) : Canvas :=
  let measure := R.textWidth cfg.font_name cfg.font_size
  let lines := computeLines R cfg displayText w
  drawGlyphLines R cfg measure w lines img (textYPosition cfg h lines.length)

/-- Claim C2: `generate_thumbnail` composites exactly these stages in this
order onto the blank canvas: solid background fill, then background image,
then pattern overlay, then (when enabled) the text background box, then the
text glyphs with their stroke last. -/
theorem generate_layer_order (R : Raster) (cfg : Config) (text : List Char)
    (number : Int) (w h : Nat) :
    (generate_thumbnail R cfg text number w h).1 =
      glyphStage R cfg (pyReplace '^' (toString number).toList text) w h
        (boxStage R cfg (pyReplace '^' (toString number).toList text) w h
          (addPattern R cfg
            (addBackgroundImage R cfg
              (addBackgroundColor cfg (blankCanvas w h) w h) w h) w h)) := rfl

/-! ## Claim C3: the background fill ignores opacity and the color's alpha -/

/-- `cfg` with the background-opacity setting and the alpha component of the
configured background color replaced. -/
def setBgOpacity (cfg : Config) (o : Int) (a : Nat) : Config :=
  { cfg with
      background_opacity := o
      background_color :=
        ⟨cfg.background_color.r, cfg.background_color.g, cfg.background_color.b, a⟩ }

lemma addBackgroundColor_setBgOpacity (cfg : Config) (o : Int) (a : Nat)
    (img : Canvas) (w h : Nat) :
    addBackgroundColor (setBgOpacity cfg o a) img w h =
      addBackgroundColor cfg img w h := rfl

lemma addBackgroundImage_setBgOpacity_none {R : Raster} {cfg : Config}
    (hbg : cfg.background_image = none) (o : Int) (a : Nat) (img : Canvas)
    (w h : Nat) :
    addBackgroundImage R (setBgOpacity cfg o a) img w h = img := by
  have hb : (setBgOpacity cfg o a).background_image = none := hbg
  rw [addBackgroundImage, hb]

lemma addBackgroundImage_none {R : Raster} {cfg : Config}
    (hbg : cfg.background_image = none) (img : Canvas) (w h : Nat) :
    addBackgroundImage R cfg img w h = img := by
  rw [addBackgroundImage, hbg]

lemma addPattern_setBgOpacity (R : Raster) (cfg : Config) (o : Int) (a : Nat)
    (img : Canvas) (w h : Nat) :
    addPattern R (setBgOpacity cfg o a) img w h = addPattern R cfg img w h := by
  have hp : (setBgOpacity cfg o a).current_pattern = cfg.current_pattern := rfl
  rw [addPattern, addPattern, hp]
  cases cfg.current_pattern with
  | none => rfl
  | some p => rfl

lemma drawGlyphLines_setBgOpacity (R : Raster) (cfg : Config) (o : Int)
    (a : Nat) (measure : List Char → Int) (w : Nat) :
    ∀ (lines : List (List Char)) (img : Canvas) (y : Int),
      drawGlyphLines R (setBgOpacity cfg o a) measure w lines img y =
        drawGlyphLines R cfg measure w lines img y := by
  intro lines
  induction lines with
  | nil => intro img y; rfl
  | cons l ls ih =>
    intro img y
    rw [drawGlyphLines, drawGlyphLines]
    exact ih _ _

lemma addText_setBgOpacity (R : Raster) (cfg : Config) (o : Int) (a : Nat)
    (img : Canvas) (dt : List Char) (w h : Nat) :
    addText R (setBgOpacity cfg o a) img dt w h = addText R cfg img dt w h := by
  unfold addText
  exact drawGlyphLines_setBgOpacity R cfg o a _ w _ _ _

/-- Claim C3: when no background image is configured, the rendered canvas is
identical for any two background-opacity settings and any two alpha components
of the background color — the solid fill is composited at alpha 255
regardless. -/
theorem background_fill_ignores_opacity (R : Raster) (cfg : Config)
    (text : List Char) (number : Int) (w h : Nat) (o o' : Int) (a a' : Nat)
    (hbg : cfg.background_image = none) :
    generate_thumbnail R (setBgOpacity cfg o a) text number w h =
      generate_thumbnail R (setBgOpacity cfg o' a') text number w h := by
  simp only [generate_thumbnail, addBackgroundColor_setBgOpacity,
    addBackgroundImage_setBgOpacity_none hbg, addPattern_setBgOpacity,
    addText_setBgOpacity]
  rfl

/-- Witness for `background_fill_ignores_opacity`: opacity 10 versus 100 and
color alpha 0 versus 255 at the default style, which has no background
image. -/
theorem background_fill_ignores_opacity_witness :
    defaultConfig.background_image = none ∧
      generate_thumbnail constRaster (setBgOpacity defaultConfig 10 0)
          "hi".toList 1 2 2 =
        generate_thumbnail constRaster (setBgOpacity defaultConfig 100 255)
          "hi".toList 1 2 2 :=
  ⟨rfl, background_fill_ignores_opacity constRaster defaultConfig "hi".toList
    1 2 2 10 100 0 255 rfl⟩

/-! ## Claim C4: the filename returned by a render call -/

/-- Claim C4 counterexample: with filename template `"Report^"` and sequence
number 7, `generate_thumbnail` returns `"Report^7"`, not the claimed
`"Report7"` — the number is appended and the `'^'` placeholder is never
substituted in the filename. -/
theorem filename_substitution_counterexample :
    (generate_thumbnail constRaster
        { defaultConfig with filename_base := "Report^".toList }
        "x".toList 7 1 1).2 = "Report^7".toList ∧
    (generate_thumbnail constRaster
        { defaultConfig with filename_base := "Report^".toList }
        "x".toList 7 1 1).2 ≠ "Report7".toList := by
  constructor
  · rfl
  · decide

/-- Claim C4 as amended: the filename returned by a render call is the
filename template with the decimal sequence number appended (no placeholder
substitution): `f"{filename_base}{number}"`. -/
theorem filename_appends_number (R : Raster) (cfg : Config) (text : List Char)
    (number : Int) (w h : Nat) :
    (generate_thumbnail R cfg text number w h).2 =
      cfg.filename_base ++ (toString number).toList := rfl

/-! ## Claim C5: the text box's horizontal alignment rule -/

/-- A style with alignment `"top_left"` and the text box enabled, used to show
the box does not follow the text's horizontal rule there. -/
def topLeftBoxConfig : Config :=
  { defaultConfig with text_alignment := "top_left", text_box_enabled := true }

/-- Claim C5 counterexample: at alignment `"top_left"` (1280 px wide canvas,
margins 100, padding 20, widest line 200 px) the text lines start at
x = 100, so the text's horizontal rule would put the box at 80; the code's
`_draw_text_box` instead lands in its `else:  # right` branch and puts the
box at 960. -/
theorem text_box_alignment_counterexample :
    text_box_x topLeftBoxConfig 200 1280 ≠
      calculate_text_x_position topLeftBoxConfig 200 1280
          topLeftBoxConfig.text_alignment
        - topLeftBoxConfig.text_box_padding := by
  decide

/-- Claim C5 as amended: the text box's horizontal position agrees with the
text's own alignment rule (shifted left by the padding) exactly for the
alignments `"center"`, `"left"`, `"right"`, `"top_right"` and
`"bottom_right"`; for the four remaining variants (`"top_left"`,
`"bottom_left"`, `"top_center"`, `"bottom_center"`) the box always uses the
right-alignment formula `width − margin − widestLine − padding + xOffset`,
disagreeing with the text rule in general. (The box is still drawn beneath
the glyphs — `addText` applies the box stage before the glyph loop.) -/
theorem text_box_x_cases (cfg : Config) (mlw : Int) (w : Nat) :
    ((cfg.text_alignment = "center" ∨ cfg.text_alignment = "left"
        ∨ cfg.text_alignment = "right" ∨ cfg.text_alignment = "top_right"
        ∨ cfg.text_alignment = "bottom_right") →
      text_box_x cfg mlw w =
        calculate_text_x_position cfg mlw w cfg.text_alignment
          - cfg.text_box_padding) ∧
    ((cfg.text_alignment = "top_left" ∨ cfg.text_alignment = "bottom_left"
        ∨ cfg.text_alignment = "top_center"
        ∨ cfg.text_alignment = "bottom_center") →
      text_box_x cfg mlw w =
        Int.ofNat w - cfg.text_margins - mlw - cfg.text_box_padding
          + cfg.text_x_offset) := by
  constructor
  · rintro (h | h | h | h | h) <;>
      · simp [text_box_x, calculate_text_x_position, h]
        ring
  · rintro (h | h | h | h) <;>
      simp [text_box_x, h]

/-- Witness for `text_box_x_cases`: both alternatives at concrete styles — the
default centered style follows the text rule, the `"top_left"` style uses the
right-alignment formula. -/
theorem text_box_x_cases_witness :
    (topLeftBoxConfig.text_alignment = "top_left"
      ∨ topLeftBoxConfig.text_alignment = "bottom_left"
      ∨ topLeftBoxConfig.text_alignment = "top_center"
      ∨ topLeftBoxConfig.text_alignment = "bottom_center") ∧
    text_box_x topLeftBoxConfig 200 1280 =
      Int.ofNat 1280 - topLeftBoxConfig.text_margins - 200
        - topLeftBoxConfig.text_box_padding + topLeftBoxConfig.text_x_offset :=
  ⟨Or.inl rfl, (text_box_x_cases topLeftBoxConfig 200 1280).2 (Or.inl rfl)⟩

/-! ## The resource manager (`src/resources/resource_manager.py`)

Images are tracked by their pixel dimensions (the only attribute the cache
and downscaling logic inspect). The filesystem (directory scan, extension
probing, `Image.open(...).convert("RGBA")`, including decode failures caught
by the `try`) is abstracted into `RMEnv.disk`; font loading
(`ImageFont.truetype`, which can raise `OSError` or any other exception) is
abstracted into `FontEnv.truetype` returning `Except`. -/

structure PILImage where
  width : Nat
  height : Nat
deriving DecidableEq

/-- `Image.thumbnail((mx, my), LANCZOS)`: no-op when already within bounds,
otherwise shrink to fit preserving aspect ratio. PIL's `round_aspect` float
rounding is modelled as floor division clamped to at least 1; the claims only
use the resulting size bound, which holds for every rounding in range. -/
def pil_thumbnail (mx my : Nat) (img : PILImage) : PILImage :=
  if mx ≥ img.width ∧ my ≥ img.height then img
  else if mx * img.height ≥ img.width * my then
    ⟨max 1 (my * img.width / img.height), my⟩
  else
    ⟨mx, max 1 (mx * img.height / img.width)⟩

/-- Python-dict caches as insertion-ordered association lists (new keys are
appended; `list(d.keys())[:50]` is the 50 oldest-inserted keys). -/
def assocFind (key : String) : List (String × α) → Option α
  | [] => none
  | (k, v) :: rest => if k = key then some v else assocFind key rest

/-- Why a `truetype` call failed: `OSError` (the only class the fallback loop
catches) or any other exception. -/
inductive PyErr where
  | osError
  | otherError
deriving DecidableEq

structure FontHandle where
  id : Nat
deriving DecidableEq

/-- `ImageFont.load_default()`. -/
def defaultFont : FontHandle := ⟨0⟩

structure RMState where
  images : List (String × PILImage)
  fonts : List (String × FontHandle)

structure RMEnv where
  disk : String → String → Option PILImage

/-- `ResourceManager.get_image(name, image_type)`: reject falsy or `"None"`
names, hit the `_images` dict, otherwise load from disk; only the
`'background'` category is downscaled to 2048 px, then the entry is cached.
(The `@lru_cache` wrapper only memoises the call — it never touches
`_images` — so the body is modelled directly.) -/
def imageKey (image_type name : String) : String := image_type ++ "_" ++ name

def get_image (env : RMEnv) (st : RMState) (name image_type : String) :
    Option PILImage × RMState :=
  if name = "" ∨ name = "None" then (none, st)
  else
    let cache_key := imageKey image_type name
    match assocFind cache_key st.images with
    | some image => (some image, st)
    | none =>
      match env.disk image_type name with
      | none => (none, st)
      | some raw =>
        let image :=
          if image_type = "background" ∧ (raw.width > 2048 ∨ raw.height > 2048)
          then pil_thumbnail 2048 2048 raw else raw
        (some image, { st with images := st.images ++ [(cache_key, image)] })

/-- The image processing of `app.upload_background`: decode to RGBA and
downscale to at most 2048 px per side when oversized. -/
def upload_background_image (img : PILImage) : PILImage :=
  if img.width > 2048 ∨ img.height > 2048 then pil_thumbnail 2048 2048 img else img

/-! ## Font resolution (`get_pil_font`, `_get_system_font`,
`_get_platform_fallbacks`) -/

structure FontEnv where
  font_paths : List (String × String)
  truetype : String → Int → Except PyErr FontHandle
  system : String

/-- ASCII lowercasing, Python `str.lower()` on the names this code sees. -/
def pyLowerChar (c : Char) : Char :=
  if 65 ≤ c.toNat ∧ c.toNat ≤ 90 then Char.ofNat (c.toNat + 32) else c

def pyLower (s : String) : String := String.mk (s.toList.map pyLowerChar)

/-- `_get_platform_fallbacks(system, font_name)`: the platform fallback lists,
with the two `insert(0, ...)` calls putting the Impact candidates first on
Windows and macOS when the requested name lowercases to `"impact"`. -/
def get_platform_fallbacks (system font_name : String) : List String :=
  if system = "windows" then
    let fallbacks := ["arial.ttf", "calibri.ttf", "segoeui.ttf", "tahoma.ttf",
      "C:/Windows/Fonts/arial.ttf", "C:/Windows/Fonts/calibri.ttf"]
    if pyLower font_name = "impact" then
      "C:/Windows/Fonts/impact.ttf" :: "impact.ttf" :: fallbacks
    else fallbacks
  else if system = "darwin" then
    let fallbacks := ["Arial.ttc", "Helvetica.ttc", "Arial.ttf",
      "/System/Library/Fonts/Arial.ttf", "/System/Library/Fonts/Helvetica.ttc"]
    if pyLower font_name = "impact" then "Impact.ttf" :: fallbacks else fallbacks
  else
    ["DejaVuSans.ttf", "liberation-sans.ttf", "Ubuntu-R.ttf",
      "/usr/share/fonts/truetype/dejavu/DejaVuSans.ttf",
      "/usr/share/fonts/truetype/liberation/LiberationSans-Regular.ttf"]

/-- The fallback loop of `_get_system_font`: `except OSError: continue`, every
other exception propagates; exhaustion returns `load_default()`. -/
def tryFallbacks (env : FontEnv) (size : Int) : List String → Except PyErr FontHandle
  | [] => Except.ok defaultFont
  | fb :: rest =>
    match env.truetype fb size with
    | Except.ok f => Except.ok f
    | Except.error PyErr.osError => tryFallbacks env size rest
    | Except.error PyErr.otherError => Except.error PyErr.otherError

/-- `_get_system_font(font_name, size)`: literal name first (only `OSError`
caught), then the platform fallback list. -/
def get_system_font (env : FontEnv) (font_name : String) (size : Int) :
    Except PyErr FontHandle :=
  match env.truetype font_name size with
  | Except.ok f => Except.ok f
  | Except.error PyErr.osError =>
    tryFallbacks env size (get_platform_fallbacks env.system font_name)
  | Except.error PyErr.otherError => Except.error PyErr.otherError

/-- The body of `get_pil_font`'s `try`: the custom-font index takes priority
over the system lookup. -/
def get_pil_font_attempt (env : FontEnv) (font_name : String) (size : Int) :
    Except PyErr FontHandle :=
  match assocFind font_name env.font_paths with
  | some path => env.truetype path size
  | none => get_system_font env font_name size

/-- Recovery of the outer `except Exception` handler of `get_pil_font`: any
escaped error becomes `load_default()`. -/
def exceptToFont : Except PyErr FontHandle → FontHandle
  | Except.ok f => f
  | Except.error _ => defaultFont

/-- `get_pil_font` without the dict cache: resolve, recovering from any
escaped exception with the default font. -/
def resolve_font (env : FontEnv) (font_name : String) (size : Int) : FontHandle :=
  exceptToFont (get_pil_font_attempt env font_name size)

/-- `f"{font_name}_{size}"`. -/
def fontKey (font_name : String) (size : Int) : String :=
  font_name ++ "_" ++ toString size

/-- `ResourceManager.get_pil_font(font_name, size)`: hit the `_fonts` dict,
otherwise resolve, insert, and trim the 50 oldest entries once the dict
exceeds 150. (As with `get_image`, the `@lru_cache` wrapper is pure
memoisation and is not part of the dict's behaviour.) -/
def get_pil_font (env : FontEnv) (st : RMState) (font_name : String)
    (size : Int) : FontHandle × RMState :=
  let cache_key := fontKey font_name size
  match assocFind cache_key st.fonts with
  | some f => (f, st)
  | none =>
    let font := resolve_font env font_name size
    let fonts := st.fonts ++ [(cache_key, font)]
    let fonts := if fonts.length > 150 then fonts.drop 50 else fonts
    (font, { st with fonts := fonts })

/-! ## Claim C6: load-time downscaling -/

lemma pil_thumbnail_bound (img : PILImage) :
    max (pil_thumbnail 2048 2048 img).width (pil_thumbnail 2048 2048 img).height
      ≤ 2048 := by
  rcases img with ⟨w, h⟩
  by_cases h1 : 2048 ≥ w ∧ 2048 ≥ h
  · rw [pil_thumbnail, if_pos h1]
    simp only
    omega
  · rw [pil_thumbnail, if_neg h1]
    by_cases h2 : 2048 * h ≥ w * 2048
    · rw [if_pos h2]
      simp only
      have hh : 0 < h := by
        rcases Nat.eq_zero_or_pos h with hz | hp
        · subst hz; omega
        · exact hp
      have hle : 2048 * w / h ≤ 2048 :=
        le_trans (Nat.div_le_div_right (by omega)) (le_of_eq (Nat.mul_div_cancel 2048 hh))
      omega
    · rw [if_neg h2]
      simp only
      have hw : 0 < w := by omega
      have hle : 2048 * h / w ≤ 2048 :=
        le_trans (Nat.div_le_div_right (by omega)) (le_of_eq (Nat.mul_div_cancel 2048 hw))
      omega

/-- Claim C6 counterexample: a 4096×3000 pattern asset is returned by
`get_image` at its original size — only the `'background'` category is
downscaled at load. -/
theorem pattern_not_downscaled_counterexample :
    (get_image ⟨fun t n => if t = "pattern" ∧ n = "bigpat"
        then some ⟨4096, 3000⟩ else none⟩
      ⟨[], []⟩ "bigpat" "pattern").1 = some ⟨4096, 3000⟩ ∧
    ¬ (max (4096 : Nat) 3000 ≤ 2048) := by
  constructor
  · decide
  · decide

/-- Claim C6 as amended: background images — catalog loads and ad-hoc
uploads — are downscaled at load to `max(width, height) ≤ 2048`; pattern
images are returned from disk unchanged, never downscaled. -/
theorem image_downscaling :
    (∀ (env : RMEnv) (st : RMState) (name : String) (img : PILImage),
        assocFind (imageKey "background" name) st.images = none →
        (get_image env st name "background").1 = some img →
        max img.width img.height ≤ 2048) ∧
    (∀ (env : RMEnv) (st : RMState) (name : String) (raw : PILImage),
        ¬ (name = "" ∨ name = "None") →
        assocFind (imageKey "pattern" name) st.images = none →
        env.disk "pattern" name = some raw →
        (get_image env st name "pattern").1 = some raw) ∧
    (∀ raw : PILImage,
        max (upload_background_image raw).width
          (upload_background_image raw).height ≤ 2048) := by
  refine ⟨?_, ?_, ?_⟩
  · intro env st name img hcache hret
    by_cases hname : name = "" ∨ name = "None"
    · rw [get_image, if_pos hname] at hret
      exact absurd hret (by simp)
    · rw [get_image, if_neg hname] at hret
      simp only [hcache] at hret
      cases hdisk : env.disk "background" name with
      | none => rw [hdisk] at hret; exact absurd hret (by simp)
      | some raw =>
        rw [hdisk] at hret
        simp only [Option.some.injEq] at hret
        by_cases hbig : raw.width > 2048 ∨ raw.height > 2048
        · rw [if_pos ⟨trivial, hbig⟩] at hret
          rw [← hret]
          exact pil_thumbnail_bound raw
        · rw [if_neg (fun hc => hbig hc.2)] at hret
          rw [← hret]
          omega
  · intro env st name raw hname hcache hdisk
    rw [get_image, if_neg hname]
    simp only [hcache, hdisk]
    rw [if_neg (fun hc => by exact absurd hc.1 (by decide))]
  · intro raw
    rw [upload_background_image]
    by_cases hbig : raw.width > 2048 ∨ raw.height > 2048
    · rw [if_pos hbig]
      exact pil_thumbnail_bound raw
    · rw [if_neg hbig]
      omega

/-- Witness for `image_downscaling`: a 4096×3000 background asset comes back
as 2048×1500 from a fresh cache. -/
theorem image_downscaling_witness :
    assocFind (imageKey "background" "big") (⟨[], []⟩ : RMState).images = none ∧
    max (2048 : Nat) 1500 ≤ 2048 :=
  ⟨by decide,
    image_downscaling.1
      ⟨fun t n => if t = "background" ∧ n = "big" then some ⟨4096, 3000⟩ else none⟩
      ⟨[], []⟩ "big" ⟨2048, 1500⟩ (by decide) (by decide)⟩

/-! ## Claim C7: font resolution order and totality -/

/-- The ordered candidate sources `get_pil_font` consults: the custom index
path when the requested name is indexed, otherwise the literal name followed
by the platform fallbacks; the built-in default closes the chain. -/
def fontCandidates (env : FontEnv) (font_name : String) : List String :=
  match assocFind font_name env.font_paths with
  | some path => [path]
  | none => font_name :: get_platform_fallbacks env.system font_name

/-- First candidate that loads, else the default font. -/
def firstLoadable (env : FontEnv) (size : Int) : List String → FontHandle
  | [] => defaultFont
  | c :: cs =>
    match env.truetype c size with
    | Except.ok f => f
    | Except.error _ => firstLoadable env size cs

lemma tryFallbacks_good (env : FontEnv) (size : Int) :
    ∀ fbs : List String,
      tryFallbacks env size fbs = Except.error PyErr.otherError ∨
      ∃ f, tryFallbacks env size fbs = Except.ok f ∧
        (f = defaultFont ∨ ∃ c, env.truetype c size = Except.ok f) := by
  intro fbs
  induction fbs with
  | nil => exact Or.inr ⟨defaultFont, rfl, Or.inl rfl⟩
  | cons fb rest ih =>
    cases htt : env.truetype fb size with
    | ok f =>
      refine Or.inr ⟨f, ?_, Or.inr ⟨fb, htt⟩⟩
      rw [tryFallbacks, htt]
    | error e =>
      cases e with
      | osError => rw [tryFallbacks, htt]; exact ih
      | otherError => rw [tryFallbacks, htt]; exact Or.inl rfl

lemma tryFallbacks_firstLoadable (env : FontEnv) (size : Int)
    (hOther : ∀ c, env.truetype c size ≠ Except.error PyErr.otherError) :
    ∀ fbs : List String,
      exceptToFont (tryFallbacks env size fbs) = firstLoadable env size fbs := by
  intro fbs
  induction fbs with
  | nil => rfl
  | cons fb rest ih =>
    cases htt : env.truetype fb size with
    | ok f => simp only [tryFallbacks, htt, firstLoadable, exceptToFont]
    | error e =>
      cases e with
      | osError =>
        simp only [tryFallbacks, htt, firstLoadable]
        exact ih
      | otherError => exact absurd htt (hOther fb)

/-- Claim C7: `get_pil_font` always yields a usable handle — either a font
some `truetype` call actually loaded or the built-in default — and never
propagates an exception (first conjunct); when load failures are `OSError`
(the failure mode of a missing font), the result is exactly the first
loadable candidate of the documented chain: custom index entry if the name is
indexed, else the literal name, then the platform fallback list, with the
default closing the chain (second conjunct); the Windows and macOS fallback
lists put the Impact candidates first when the requested name lowercases to
`"impact"` (third conjunct). -/
theorem font_resolution (env : FontEnv) (font_name : String) (size : Int) :
    (resolve_font env font_name size = defaultFont ∨
      ∃ cand, env.truetype cand size =
        Except.ok (resolve_font env font_name size)) ∧
    ((∀ c, env.truetype c size ≠ Except.error PyErr.otherError) →
      resolve_font env font_name size =
        firstLoadable env size (fontCandidates env font_name)) ∧
    (pyLower font_name = "impact" →
      get_platform_fallbacks "windows" font_name =
        ["C:/Windows/Fonts/impact.ttf", "impact.ttf", "arial.ttf",
          "calibri.ttf", "segoeui.ttf", "tahoma.ttf",
          "C:/Windows/Fonts/arial.ttf", "C:/Windows/Fonts/calibri.ttf"] ∧
      get_platform_fallbacks "darwin" font_name =
        ["Impact.ttf", "Arial.ttc", "Helvetica.ttc", "Arial.ttf",
          "/System/Library/Fonts/Arial.ttf",
          "/System/Library/Fonts/Helvetica.ttc"]) := by
  refine ⟨?_, ?_, ?_⟩
  · cases hfp : assocFind font_name env.font_paths with
    | some path =>
      cases htt : env.truetype path size with
      | ok f =>
        refine Or.inr ⟨path, ?_⟩
        simp only [resolve_font, get_pil_font_attempt, hfp, htt, exceptToFont]
      | error e =>
        refine Or.inl ?_
        simp only [resolve_font, get_pil_font_attempt, hfp, htt, exceptToFont]
    | none =>
      cases htt : env.truetype font_name size with
      | ok f =>
        refine Or.inr ⟨font_name, ?_⟩
        simp only [resolve_font, get_pil_font_attempt, hfp, get_system_font, htt,
          exceptToFont]
      | error e =>
        cases e with
        | otherError =>
          refine Or.inl ?_
          simp only [resolve_font, get_pil_font_attempt, hfp, get_system_font, htt,
            exceptToFont]
        | osError =>
          rcases tryFallbacks_good env size
              (get_platform_fallbacks env.system font_name) with hbad | ⟨f, hok, hf⟩
          · refine Or.inl ?_
            simp only [resolve_font, get_pil_font_attempt, hfp, get_system_font,
              htt, hbad, exceptToFont]
          · rcases hf with rfl | ⟨c, hc⟩
            · refine Or.inl ?_
              simp only [resolve_font, get_pil_font_attempt, hfp, get_system_font,
                htt, hok, exceptToFont]
            · refine Or.inr ⟨c, ?_⟩
              simp only [resolve_font, get_pil_font_attempt, hfp, get_system_font,
                htt, hok, exceptToFont, hc]
  · intro hOther
    cases hfp : assocFind font_name env.font_paths with
    | some path =>
      cases htt : env.truetype path size with
      | ok f =>
        simp only [resolve_font, get_pil_font_attempt, hfp, htt, exceptToFont,
          fontCandidates, firstLoadable]
      | error e =>
        simp only [resolve_font, get_pil_font_attempt, hfp, htt, exceptToFont,
          fontCandidates, firstLoadable]
    | none =>
      cases htt : env.truetype font_name size with
      | ok f =>
        simp only [resolve_font, get_pil_font_attempt, hfp, get_system_font, htt,
          exceptToFont, fontCandidates, firstLoadable]
      | error e =>
        cases e with
        | otherError => exact absurd htt (hOther font_name)
        | osError =>
          simp only [resolve_font, get_pil_font_attempt, hfp, get_system_font, htt,
            fontCandidates, firstLoadable]
          exact tryFallbacks_firstLoadable env size hOther _
  · intro himp
    constructor
    · simp [get_platform_fallbacks, himp]
    · simp [get_platform_fallbacks, himp]

/-- An environment where every `truetype` call fails with `OSError` (no font
present anywhere), used to witness the resolution chain at a concrete
input. -/
def fallbackOnlyEnv : FontEnv where
  font_paths := []
  truetype := fun _ _ => Except.error PyErr.osError
  system := "linux"

/-- Witness for `font_resolution`: with every load failing by `OSError`, the
request for `"Impact"` at size 100 walks the whole chain and resolves to the
built-in default. -/
theorem font_resolution_witness :
    (∀ c, fallbackOnlyEnv.truetype c 100 ≠ Except.error PyErr.otherError) ∧
    resolve_font fallbackOnlyEnv "Impact" 100 =
      firstLoadable fallbackOnlyEnv 100 (fontCandidates fallbackOnlyEnv "Impact") :=
  ⟨fun c => by simp [fallbackOnlyEnv],
    (font_resolution fallbackOnlyEnv "Impact" 100).2.1
      (fun c => by simp [fallbackOnlyEnv])⟩

/-! ## Claim C8: cache bounding and eviction -/

/-- Claim C8 as amended: the font cache is capacity-bounded with batch
eviction — never above 150 entries after a completed call, and on overflow
the new state is exactly the appended list with its 50 oldest-inserted
entries dropped (first two conjuncts); the image cache has no eviction at
all — a completed `get_image` call either leaves `_images` unchanged or
appends exactly one entry, so it grows without bound (third conjunct). -/
theorem cache_eviction :
    (∀ (env : FontEnv) (st : RMState) (font_name : String) (size : Int),
        st.fonts.length ≤ 150 →
        ((get_pil_font env st font_name size).2).fonts.length ≤ 150) ∧
    (∀ (env : FontEnv) (st : RMState) (font_name : String) (size : Int),
        assocFind (fontKey font_name size) st.fonts = none →
        150 < st.fonts.length + 1 →
        ((get_pil_font env st font_name size).2).fonts =
          (st.fonts ++
            [(fontKey font_name size, resolve_font env font_name size)]).drop 50) ∧
    (∀ (env : RMEnv) (st : RMState) (name image_type : String),
        ((get_image env st name image_type).2).images = st.images ∨
        ∃ e, ((get_image env st name image_type).2).images = st.images ++ [e]) := by
  refine ⟨?_, ?_, ?_⟩
  · intro env st font_name size hlen
    cases hk : assocFind (fontKey font_name size) st.fonts with
    | some f => simp only [get_pil_font, hk]; exact hlen
    | none =>
      simp only [get_pil_font, hk]
      by_cases hbig :
        (st.fonts ++ [(fontKey font_name size, resolve_font env font_name size)]).length
          > 150
      · rw [if_pos hbig]
        simp only [List.length_drop, List.length_append, List.length_singleton]
        omega
      · rw [if_neg hbig]
        simp only [List.length_append, List.length_singleton] at hbig ⊢
        omega
  · intro env st font_name size hk hlen
    simp only [get_pil_font, hk]
    have hcond :
        (st.fonts ++ [(fontKey font_name size, resolve_font env font_name size)]).length
          > 150 := by
      simp only [List.length_append, List.length_singleton]
      omega
    rw [if_pos hcond]
  · intro env st name image_type
    by_cases hname : name = "" ∨ name = "None"
    · left
      simp only [get_image, if_pos hname]
    · cases hk : assocFind (imageKey image_type name) st.images with
      | some img =>
        left
        simp only [get_image, if_neg hname, hk]
      | none =>
        cases hd : env.disk image_type name with
        | none =>
          left
          simp only [get_image, if_neg hname, hk, hd]
        | some raw =>
          right
          refine ⟨(imageKey image_type name,
            if image_type = "background" ∧ (raw.width > 2048 ∨ raw.height > 2048)
            then pil_thumbnail 2048 2048 raw else raw), ?_⟩
          simp only [get_image, if_neg hname, hk, hd]

/-- Witness for `cache_eviction`: one font load starting from the empty cache
stays within the 150-entry ceiling. -/
theorem cache_eviction_witness :
    (⟨[], []⟩ : RMState).fonts.length ≤ 150 ∧
    ((get_pil_font fallbackOnlyEnv ⟨[], []⟩ "Arial" 100).2).fonts.length ≤ 150 :=
  ⟨by decide, cache_eviction.1 fallbackOnlyEnv ⟨[], []⟩ "Arial" 100 (by decide)⟩

/-- A disk on which every lookup yields a 1×1 image. -/
def unitDiskEnv : RMEnv := ⟨fun _ _ => some ⟨1, 1⟩⟩

/-- The image cache exactly as it stands after 151 distinct pattern loads from
`unitDiskEnv`: each fresh load appends exactly one entry to `_images`. -/
def bigImageCache : List (String × PILImage) :=
  (List.range 151).map (fun i => (imageKey "pattern" (toString i), ⟨1, 1⟩))

set_option maxRecDepth 4000 in
/-- Claim C8 counterexample: the image cache is not capacity-bounded — at 151
entries (already past the only stated ceiling, 150) a further completed
`get_image` call grows it to 152 and evicts nothing. -/
theorem image_cache_unbounded_counterexample :
    bigImageCache.length = 151 ∧
    ((get_image unitDiskEnv ⟨bigImageCache, []⟩ "fresh" "pattern").2).images.length
      = 152 ∧
    150 < 152 :=
  ⟨by decide, by decide, by decide⟩

end ThumbGen
